import Mathlib

/-!
Verification of the underwater-photo color-correction program.

The per-pixel adjustment pipeline (`applyAdjustments` in `src/App.tsx`,
lines 174-234) and the interactive curve widget (`src/components/CurveEditor.tsx`)
are embedded shallowly.  The source performs its per-pixel arithmetic on
JavaScript numbers; the embedding models that arithmetic exactly over `ℚ`
(every constant appearing in the source — 0.299, 0.587, 0.114, 2.55, 0.7, 0.3 —
is a decimal literal, read here as the exact rational it denotes).  The
write-back `data[i] = r` into the `Uint8ClampedArray` is modelled by
clamping to [0,255] followed by round-half-to-even, which is the conversion
the typed-array assignment performs.
-/

namespace UnderwaterPhoto

/-- Clamping `Math.min(255, Math.max(0, v))`, the clamping used at every applied step. -/
def clamp255 (v : ℚ) : ℚ := min 255 (max 0 v)

/-- The `ColorAdjustments` interface of `src/App.tsx` (lines 27-55):
nine scalar tone controls, four 5-point curves, seven selective-color
controls and seven per-color saturation controls. -/
structure ColorAdjustments where
  temperature : ℚ
  tint : ℚ
  contrast : ℚ
  saturation : ℚ
  highlights : ℚ
  midtones : ℚ
  shadows : ℚ
  whites : ℚ
  blacks : ℚ
  redCurve : List ℚ
  greenCurve : List ℚ
  blueCurve : List ℚ
  rgbCurve : List ℚ
  selectiveRed : ℚ
  selectiveOrange : ℚ
  selectiveYellow : ℚ
  selectiveGreen : ℚ
  selectiveCyan : ℚ
  selectiveBlue : ℚ
  selectiveMagenta : ℚ
  saturationRed : ℚ
  saturationOrange : ℚ
  saturationYellow : ℚ
  saturationGreen : ℚ
  saturationCyan : ℚ
  saturationBlue : ℚ
  saturationMagenta : ℚ
deriving DecidableEq

/-- The `defaultAdjustments` record of `src/App.tsx` (lines 57-85). -/
def defaultAdjustments : ColorAdjustments where
  temperature := 0
  tint := 0
  contrast := 0
  saturation := 0
  highlights := 0
  midtones := 0
  shadows := 0
  whites := 0
  blacks := 0
  redCurve := [0, 25, 50, 75, 100]
  greenCurve := [0, 25, 50, 75, 100]
  blueCurve := [0, 25, 50, 75, 100]
  rgbCurve := [0, 25, 50, 75, 100]
  selectiveRed := 0
  selectiveOrange := 0
  selectiveYellow := 0
  selectiveGreen := 0
  selectiveCyan := 0
  selectiveBlue := 0
  selectiveMagenta := 0
  saturationRed := 0
  saturationOrange := 0
  saturationYellow := 0
  saturationGreen := 0
  saturationCyan := 0
  saturationBlue := 0
  saturationMagenta := 0

/-- The working r,g,b triple of the per-pixel loop, before write-back. -/
structure RGB where
  r : ℚ
  g : ℚ
  b : ℚ
deriving DecidableEq

/-- Temperature adjustment, `src/App.tsx` lines 180-184. -/
def tempStep (adj : ColorAdjustments) (c : RGB) : RGB :=
  if adj.temperature ≠ 0 then
    let temp := adj.temperature / 100
    { r := clamp255 (c.r + temp * 30), g := c.g, b := clamp255 (c.b - temp * 30) }
  else c

/-- Tint adjustment, `src/App.tsx` lines 187-190. -/
def tintStep (adj : ColorAdjustments) (c : RGB) : RGB :=
  if adj.tint ≠ 0 then
    let tint := adj.tint / 100
    { c with g := clamp255 (c.g + tint * 30) }
  else c

/-- Contrast adjustment, `src/App.tsx` lines 193-199. -/
def contrastStep (adj : ColorAdjustments) (c : RGB) : RGB :=
  if adj.contrast ≠ 0 then
    let contrast := adj.contrast / 100 * 2.55
    let factor := 259 * (contrast + 255) / (255 * (259 - contrast))
    { r := clamp255 (factor * (c.r - 128) + 128),
      g := clamp255 (factor * (c.g - 128) + 128),
      b := clamp255 (factor * (c.b - 128) + 128) }
  else c

/-- Saturation adjustment, `src/App.tsx` lines 202-208. -/
def satStep (adj : ColorAdjustments) (c : RGB) : RGB :=
  if adj.saturation ≠ 0 then
    let sat := 1 + adj.saturation / 100
    let gray := 0.299 * c.r + 0.587 * c.g + 0.114 * c.b
    { r := clamp255 (gray + sat * (c.r - gray)),
      g := clamp255 (gray + sat * (c.g - gray)),
      b := clamp255 (gray + sat * (c.b - gray)) }
  else c

/-- The normalized luminance computed at `src/App.tsx` lines 211-212. -/
def normalizedLum (c : RGB) : ℚ :=
  (0.299 * c.r + 0.587 * c.g + 0.114 * c.b) / 255

/-- Highlights/midtones/shadows zone adjustment, `src/App.tsx` lines 211-229. -/
def zoneStep (adj : ColorAdjustments) (c : RGB) : RGB :=
  let nl := normalizedLum c
  if nl > 0.7 ∧ adj.highlights ≠ 0 then
    let factor := 1 + adj.highlights / 100
    { r := clamp255 (c.r * factor), g := clamp255 (c.g * factor),
      b := clamp255 (c.b * factor) }
  else if nl ≥ 0.3 ∧ nl ≤ 0.7 ∧ adj.midtones ≠ 0 then
    let factor := 1 + adj.midtones / 100
    { r := clamp255 (c.r * factor), g := clamp255 (c.g * factor),
      b := clamp255 (c.b * factor) }
  else if nl < 0.3 ∧ adj.shadows ≠ 0 then
    let factor := 1 + adj.shadows / 100
    { r := clamp255 (c.r * factor), g := clamp255 (c.g * factor),
      b := clamp255 (c.b * factor) }
  else c

/-- The complete per-pixel arithmetic of the loop body,
`src/App.tsx` lines 174-229, in the source's fixed order. -/
def applyPixelQ (adj : ColorAdjustments) (c : RGB) : RGB :=
  zoneStep adj (satStep adj (contrastStep adj (tintStep adj (tempStep adj c))))

/-- One (r,g,b,a) element of the `ImageData` buffer: 8-bit channel values. -/
structure Pixel where
  r : ℕ
  g : ℕ
  b : ℕ
  a : ℕ
deriving DecidableEq

/-- Round half to even, the rounding mode of `Uint8ClampedArray` assignment. -/
def roundHalfEven (q : ℚ) : ℤ :=
  let f := Int.floor q
  if q - f < 1 / 2 then f
  else if q - f > 1 / 2 then f + 1
  else if Even f then f else f + 1

/-- Assignment `data[i] = v` into a `Uint8ClampedArray`: clamp into [0,255],
then round half to even. -/
def storeByte (v : ℚ) : ℕ := (roundHalfEven (clamp255 v)).toNat

/-- One iteration of the pixel loop including the write-back
(`src/App.tsx` lines 174-233); the alpha byte `data[i+3]` is untouched. -/
def applyPixel (adj : ColorAdjustments) (p : Pixel) : Pixel :=
  let c := applyPixelQ adj { r := (p.r : ℚ), g := (p.g : ℚ), b := (p.b : ℚ) }
  { r := storeByte c.r, g := storeByte c.g, b := storeByte c.b, a := p.a }

/-- The whole pixel loop over the buffer. -/
def processBuffer (adj : ColorAdjustments) (buf : List Pixel) : List Pixel :=
  buf.map (applyPixel adj)

/-- The render step of `applyAdjustments` (`src/App.tsx` lines 157-240):
`drawImage` overwrites the whole canvas with the decoded source image
(so the previous canvas content never contributes), then, unless
`showBefore` is set, the pixel loop transforms it in place. -/
def renderCanvas (src : List Pixel) (adj : ColorAdjustments) (showBefore : Bool)
    (_prevCanvas : List Pixel) : List Pixel :=
  if showBefore then src else processBuffer adj src

/-- A buffer decoded from an image: every channel byte is at most 255. -/
def validBuffer (buf : List Pixel) : Prop :=
  ∀ p ∈ buf, p.r ≤ 255 ∧ p.g ≤ 255 ∧ p.b ≤ 255

/-- Every scalar control is 0 and every curve is the identity ramp. -/
def isIdentityAdjustments (adj : ColorAdjustments) : Prop :=
  adj.temperature = 0 ∧ adj.tint = 0 ∧ adj.contrast = 0 ∧ adj.saturation = 0 ∧
  adj.highlights = 0 ∧ adj.midtones = 0 ∧ adj.shadows = 0 ∧
  adj.whites = 0 ∧ adj.blacks = 0 ∧
  adj.redCurve = [0, 25, 50, 75, 100] ∧ adj.greenCurve = [0, 25, 50, 75, 100] ∧
  adj.blueCurve = [0, 25, 50, 75, 100] ∧ adj.rgbCurve = [0, 25, 50, 75, 100] ∧
  adj.selectiveRed = 0 ∧ adj.selectiveOrange = 0 ∧ adj.selectiveYellow = 0 ∧
  adj.selectiveGreen = 0 ∧ adj.selectiveCyan = 0 ∧ adj.selectiveBlue = 0 ∧
  adj.selectiveMagenta = 0 ∧
  adj.saturationRed = 0 ∧ adj.saturationOrange = 0 ∧ adj.saturationYellow = 0 ∧
  adj.saturationGreen = 0 ∧ adj.saturationCyan = 0 ∧ adj.saturationBlue = 0 ∧
  adj.saturationMagenta = 0

lemma applyPixelQ_of_zero (adj : ColorAdjustments) (c : RGB)
    (ht : adj.temperature = 0) (hti : adj.tint = 0) (hc : adj.contrast = 0)
    (hs : adj.saturation = 0) (hh : adj.highlights = 0) (hm : adj.midtones = 0)
    (hsh : adj.shadows = 0) : applyPixelQ adj c = c := by
  simp [applyPixelQ, tempStep, tintStep, contrastStep, satStep, zoneStep,
    ht, hti, hc, hs, hh, hm, hsh]

lemma roundHalfEven_natCast (n : ℕ) : roundHalfEven (n : ℚ) = n := by
  simp [roundHalfEven]

lemma storeByte_natCast (n : ℕ) (h : n ≤ 255) : storeByte (n : ℚ) = n := by
  have h0 : (0 : ℚ) ≤ (n : ℚ) := by positivity
  have h1 : (n : ℚ) ≤ 255 := by exact_mod_cast h
  simp [storeByte, clamp255, max_eq_right h0, min_eq_right h1, roundHalfEven_natCast]

/-- C1. Identity law: with every control at 0 and every curve at the
identity ramp, the pipeline output buffer equals the input buffer exactly,
pixel for pixel and channel for channel. -/
theorem pipeline_identity_law (adj : ColorAdjustments) (buf : List Pixel)
    (hid : isIdentityAdjustments adj) (hbuf : validBuffer buf) :
    processBuffer adj buf = buf := by
  obtain ⟨ht, hti, hc, hs, hh, hm, hsh, _⟩ := hid
  have hpoint : ∀ p ∈ buf, applyPixel adj p = p := by
    intro p hp
    obtain ⟨hr, hg, hb⟩ := hbuf p hp
    unfold applyPixel
    rw [applyPixelQ_of_zero adj _ ht hti hc hs hh hm hsh]
    simp [storeByte_natCast _ hr, storeByte_natCast _ hg, storeByte_natCast _ hb]
  have h2 : buf.map (applyPixel adj) = buf.map id := List.map_congr_left hpoint
  simpa [processBuffer] using h2

/-- Witness for C1 at a concrete buffer and the default adjustments. -/
theorem pipeline_identity_law_witness :
    processBuffer defaultAdjustments
      [⟨10, 20, 30, 255⟩, ⟨0, 255, 128, 0⟩] = [⟨10, 20, 30, 255⟩, ⟨0, 255, 128, 0⟩] :=
  pipeline_identity_law defaultAdjustments _
    (by refine ⟨rfl, rfl, rfl, rfl, rfl, rfl, rfl, rfl, rfl, rfl, rfl, rfl, rfl,
      rfl, rfl, rfl, rfl, rfl, rfl, rfl, rfl, rfl, rfl, rfl, rfl, rfl, rfl⟩)
    (by intro p hp; simp only [List.mem_cons, List.mem_singleton] at hp
        rcases hp with h | h | h <;> simp_all)

/-- All three working channels lie within [0,255]. -/
def inRange (c : RGB) : Prop :=
  0 ≤ c.r ∧ c.r ≤ 255 ∧ 0 ≤ c.g ∧ c.g ≤ 255 ∧ 0 ≤ c.b ∧ c.b ≤ 255

lemma clamp255_nonneg (v : ℚ) : 0 ≤ clamp255 v :=
  le_min (by norm_num) (le_max_left 0 v)

lemma clamp255_le (v : ℚ) : clamp255 v ≤ 255 := min_le_left _ _

lemma tempStep_inRange (adj : ColorAdjustments) (c : RGB) (h : inRange c) :
    inRange (tempStep adj c) := by
  obtain ⟨h1, h2, h3, h4, h5, h6⟩ := h
  simp only [tempStep, inRange]
  split <;> simp_all [clamp255_nonneg, clamp255_le]

lemma tintStep_inRange (adj : ColorAdjustments) (c : RGB) (h : inRange c) :
    inRange (tintStep adj c) := by
  obtain ⟨h1, h2, h3, h4, h5, h6⟩ := h
  simp only [tintStep, inRange]
  split <;> simp_all [clamp255_nonneg, clamp255_le]

lemma contrastStep_inRange (adj : ColorAdjustments) (c : RGB) (h : inRange c) :
    inRange (contrastStep adj c) := by
  obtain ⟨h1, h2, h3, h4, h5, h6⟩ := h
  simp only [contrastStep, inRange]
  split <;> simp_all [clamp255_nonneg, clamp255_le]

lemma satStep_inRange (adj : ColorAdjustments) (c : RGB) (h : inRange c) :
    inRange (satStep adj c) := by
  obtain ⟨h1, h2, h3, h4, h5, h6⟩ := h
  simp only [satStep, inRange]
  split <;> simp_all [clamp255_nonneg, clamp255_le]

lemma zoneStep_inRange (adj : ColorAdjustments) (c : RGB) (h : inRange c) :
    inRange (zoneStep adj c) := by
  obtain ⟨h1, h2, h3, h4, h5, h6⟩ := h
  simp only [zoneStep, inRange]
  split <;> (try split) <;> (try split) <;>
    simp_all [clamp255_nonneg, clamp255_le]

/-- Every stage of the per-pixel arithmetic keeps the channels in [0,255]. -/
lemma applyPixelQ_inRange (adj : ColorAdjustments) (c : RGB) (h : inRange c) :
    inRange (applyPixelQ adj c) :=
  zoneStep_inRange adj _ (satStep_inRange adj _ (contrastStep_inRange adj _
    (tintStep_inRange adj _ (tempStep_inRange adj c h))))

/-- The adjustments record equals the default except for exactly one scalar
control, which is nonzero and within [-100,100]. -/
def singleNonzeroControl (adj : ColorAdjustments) : Prop :=
  ∃ c : ℚ, -100 ≤ c ∧ c ≤ 100 ∧ c ≠ 0 ∧
    (adj = { defaultAdjustments with temperature := c } ∨
     adj = { defaultAdjustments with tint := c } ∨
     adj = { defaultAdjustments with contrast := c } ∨
     adj = { defaultAdjustments with saturation := c } ∨
     adj = { defaultAdjustments with highlights := c } ∨
     adj = { defaultAdjustments with midtones := c } ∨
     adj = { defaultAdjustments with shadows := c } ∨
     adj = { defaultAdjustments with whites := c } ∨
     adj = { defaultAdjustments with blacks := c } ∨
     adj = { defaultAdjustments with selectiveRed := c } ∨
     adj = { defaultAdjustments with selectiveOrange := c } ∨
     adj = { defaultAdjustments with selectiveYellow := c } ∨
     adj = { defaultAdjustments with selectiveGreen := c } ∨
     adj = { defaultAdjustments with selectiveCyan := c } ∨
     adj = { defaultAdjustments with selectiveBlue := c } ∨
     adj = { defaultAdjustments with selectiveMagenta := c } ∨
     adj = { defaultAdjustments with saturationRed := c } ∨
     adj = { defaultAdjustments with saturationOrange := c } ∨
     adj = { defaultAdjustments with saturationYellow := c } ∨
     adj = { defaultAdjustments with saturationGreen := c } ∨
     adj = { defaultAdjustments with saturationCyan := c } ∨
     adj = { defaultAdjustments with saturationBlue := c } ∨
     adj = { defaultAdjustments with saturationMagenta := c })

/-- C2. Clamping law: for every input pixel with channel values in
[0,255] and every adjustments record with a single nonzero control in
[-100,100], every output channel value of the per-pixel pipeline stays
within [0,255]. -/
theorem pipeline_clamping_law (adj : ColorAdjustments) (c : RGB)
    (_hadj : singleNonzeroControl adj) (hc : inRange c) :
    inRange (applyPixelQ adj c) :=
  applyPixelQ_inRange adj c hc

/-- Witness for C2: boundary channels 0 and 255 under extreme control +100. -/
theorem pipeline_clamping_law_witness :
    singleNonzeroControl { defaultAdjustments with temperature := 100 } ∧
      inRange (applyPixelQ { defaultAdjustments with temperature := 100 }
        { r := 255, g := 0, b := 255 }) :=
  ⟨⟨100, by norm_num, by norm_num, by norm_num, Or.inl rfl⟩,
   pipeline_clamping_law _ _ ⟨100, by norm_num, by norm_num, by norm_num, Or.inl rfl⟩
     (by simp [inRange])⟩

/-- C3 counterexample. The claim puts normalized luminance exactly 0.7 in
the highlights band.  The source tests `normalizedLum > 0.7` (strict), so a
pixel at exactly 0.7 with a nonzero highlights control does not receive the
highlights factor: with highlights = 100 and midtones = 10 the pixel
(178.5, 178.5, 178.5), whose normalized luminance is exactly 0.7, is scaled
by the midtones factor 1.1 (to 196.35), not by the highlights factor 2. -/
theorem zone_highlights_boundary_cex :
    normalizedLum { r := 178.5, g := 178.5, b := 178.5 } = 0.7 ∧
    ({ defaultAdjustments with highlights := 100, midtones := 10 } :
      ColorAdjustments).highlights ≠ 0 ∧
    zoneStep { defaultAdjustments with highlights := 100, midtones := 10 }
        { r := 178.5, g := 178.5, b := 178.5 } =
      { r := 196.35, g := 196.35, b := 196.35 } ∧
    zoneStep { defaultAdjustments with highlights := 100, midtones := 10 }
        { r := 178.5, g := 178.5, b := 178.5 } ≠
      { r := clamp255 (178.5 * (1 + 100 / 100)),
        g := clamp255 (178.5 * (1 + 100 / 100)),
        b := clamp255 (178.5 * (1 + 100 / 100)) } := by
  norm_num [normalizedLum, zoneStep, clamp255, defaultAdjustments]

/-- C3 (amended). Zone partition boundaries: normalized luminance exactly
0.7 falls into the *midtones* band (the midtones band is closed, [0.3, 0.7];
highlights is the open band above 0.7); 0.2999 falls into shadows; 0.3 falls
into midtones; and the three bands are pairwise disjoint, so only one zone's
factor applies per pixel. -/
theorem zone_partition_boundaries (adj : ColorAdjustments) (c : RGB) :
    (normalizedLum c = 0.7 → adj.midtones ≠ 0 →
      zoneStep adj c =
        { r := clamp255 (c.r * (1 + adj.midtones / 100)),
          g := clamp255 (c.g * (1 + adj.midtones / 100)),
          b := clamp255 (c.b * (1 + adj.midtones / 100)) }) ∧
    (normalizedLum c = 0.2999 → adj.shadows ≠ 0 →
      zoneStep adj c =
        { r := clamp255 (c.r * (1 + adj.shadows / 100)),
          g := clamp255 (c.g * (1 + adj.shadows / 100)),
          b := clamp255 (c.b * (1 + adj.shadows / 100)) }) ∧
    (normalizedLum c = 0.3 → adj.midtones ≠ 0 →
      zoneStep adj c =
        { r := clamp255 (c.r * (1 + adj.midtones / 100)),
          g := clamp255 (c.g * (1 + adj.midtones / 100)),
          b := clamp255 (c.b * (1 + adj.midtones / 100)) }) ∧
    ¬(normalizedLum c > 0.7 ∧ normalizedLum c ≥ 0.3 ∧ normalizedLum c ≤ 0.7) ∧
    ¬(normalizedLum c > 0.7 ∧ normalizedLum c < 0.3) ∧
    ¬(normalizedLum c ≥ 0.3 ∧ normalizedLum c ≤ 0.7 ∧ normalizedLum c < 0.3) := by
  refine ⟨?_, ?_, ?_, ?_, ?_, ?_⟩
  · intro h hm
    simp only [zoneStep, h]
    norm_num [hm]
  · intro h hs
    simp only [zoneStep, h]
    norm_num [hs]
  · intro h hm
    simp only [zoneStep, h]
    norm_num [hm]
  · rintro ⟨h1, -, h3⟩; exact absurd h1 (not_lt.mpr h3)
  · rintro ⟨h1, h2⟩; exact absurd (h1.trans h2) (by norm_num)
  · rintro ⟨h1, -, h3⟩; exact absurd h1 (not_le.mpr h3)

/-- Witness for C3 (amended): luminance exactly 0.7 with midtones = 50. -/
theorem zone_partition_boundaries_witness :
    zoneStep { defaultAdjustments with midtones := 50 }
        { r := 178.5, g := 178.5, b := 178.5 } =
      { r := clamp255 (178.5 * (1 + 50 / 100)),
        g := clamp255 (178.5 * (1 + 50 / 100)),
        b := clamp255 (178.5 * (1 + 50 / 100)) } :=
  (zone_partition_boundaries { defaultAdjustments with midtones := 50 }
      { r := 178.5, g := 178.5, b := 178.5 }).1
    (by norm_num [normalizedLum]) (by norm_num [defaultAdjustments])

/-- The two records agree on the seven controls the pixel loop reads. -/
def agreeOnWired (a a2 : ColorAdjustments) : Prop :=
  a.temperature = a2.temperature ∧ a.tint = a2.tint ∧ a.contrast = a2.contrast ∧
  a.saturation = a2.saturation ∧ a.highlights = a2.highlights ∧
  a.midtones = a2.midtones ∧ a.shadows = a2.shadows

lemma applyPixelQ_congr (a a2 : ColorAdjustments) (h : agreeOnWired a a2)
    (c : RGB) : applyPixelQ a c = applyPixelQ a2 c := by
  obtain ⟨h1, h2, h3, h4, h5, h6, h7⟩ := h
  simp only [applyPixelQ, tempStep, tintStep, contrastStep, satStep, zoneStep,
    h1, h2, h3, h4, h5, h6, h7]

/-- C4. Noninterference of unwired parameters: two adjustment records
agreeing on temperature, tint, contrast, saturation, highlights, midtones and
shadows, but differing arbitrarily in whites, blacks, the four curves and the
selective-color / per-color-saturation controls, produce identical output
buffers — the per-pixel loop never reads those parameters. -/
theorem unwired_params_noninterference (a a2 : ColorAdjustments)
    (h : agreeOnWired a a2) (buf : List Pixel) :
    processBuffer a buf = processBuffer a2 buf := by
  unfold processBuffer
  refine List.map_congr_left fun p _ => ?_
  unfold applyPixel
  rw [applyPixelQ_congr a a2 h]

/-- An adjustments record differing from the default only in unwired fields. -/
def unwiredVariant : ColorAdjustments := { defaultAdjustments with
  whites := 50
  blacks := -30
  redCurve := [5, 5, 5, 5, 5]
  greenCurve := []
  blueCurve := [1]
  rgbCurve := [100, 0]
  selectiveRed := 42
  selectiveCyan := -7
  saturationBlue := -9
  saturationMagenta := 100 }

/-- Witness for C4: whites, blacks, curves and color controls all changed. -/
theorem unwired_params_noninterference_witness :
    processBuffer unwiredVariant [⟨100, 150, 200, 255⟩] =
      processBuffer defaultAdjustments [⟨100, 150, 200, 255⟩] :=
  unwired_params_noninterference _ _ ⟨rfl, rfl, rfl, rfl, rfl, rfl, rfl⟩ _

/-! ### Curve editor (`src/components/CurveEditor.tsx`) -/

/-- The `CANVAS_SIZE` constant (CurveEditor.tsx line 39). -/
def CANVAS_SIZE : ℚ := 200

/-- The `PADDING` constant (CurveEditor.tsx line 40). -/
def PADDING : ℚ := 20

/-- Mapping `valueToCanvas` (lines 44-50) for the X axis. -/
def valueToCanvas (value : ℚ) : ℚ :=
  PADDING + value / 100 * (CANVAS_SIZE - 2 * PADDING)

/-- Mapping `valueToCanvas` (lines 44-50) with `isY = true`: screen Y grows downward. -/
def valueToCanvasY (value : ℚ) : ℚ :=
  CANVAS_SIZE - PADDING - value / 100 * (CANVAS_SIZE - 2 * PADDING)

/-- Mapping `canvasToValue` (lines 53-60) with `isY = true`: invert the Y mapping and
clamp the result into [0,100]. -/
def canvasToValueY (coord : ℚ) : ℚ :=
  max 0 (min 100 ((CANVAS_SIZE - PADDING - coord) / (CANVAS_SIZE - 2 * PADDING) * 100))

/-- A control point in canvas coordinates (`Point`, lines 7-10). -/
structure Point where
  x : ℚ
  y : ℚ
deriving DecidableEq

/-- Function `getCurvePoints` (lines 63-68): x fixed at `index * 25`, y from the curve. -/
def getCurvePoints (curve : List ℚ) : List Point :=
  curve.enum.map fun iy =>
    { x := valueToCanvas ((iy.1 : ℚ) * 25), y := valueToCanvasY iy.2 }

/-- Squared distance from the pointer to a control point; the source compares
`Math.sqrt` of this against 8, which for nonnegative reals is equivalent to
comparing this against `8 ^ 2`. -/
def distSq (x y : ℚ) (p : Point) : ℚ := (x - p.x) ^ 2 + (y - p.y) ^ 2

/-- The first-match scan of `handleMouseDown` (lines 231-240): the first
control point within distance 8 of the pointer starts a drag. -/
def downScan (x y : ℚ) : List Point → ℕ → Option ℕ
  | [], _ => none
  | p :: rest, i =>
    if distSq x y p ≤ 8 ^ 2 then some i else downScan x y rest (i + 1)

/-- Drag-start selection of `handleMouseDown`. -/
def mouseDownHit (pts : List Point) (x y : ℚ) : Option ℕ := downScan x y pts 0

/-- The hover scan of `handleMouseMove` (lines 262-270): the same first-match
loop (`break` on the first point within distance 8). -/
def hoverScan (x y : ℚ) : List Point → ℕ → Option ℕ
  | [], _ => none
  | p :: rest, i =>
    if distSq x y p ≤ 8 ^ 2 then some i else hoverScan x y rest (i + 1)

/-- Hover selection of `handleMouseMove`. -/
def hoverHit (pts : List Point) (x y : ℚ) : Option ℕ := hoverScan x y pts 0

/-- The widget's state: the curve vector (held by the parent and fed back as
the `curve` prop) plus `isDragging`, `dragIndex`, `hoveredIndex`
(CurveEditor.tsx lines 33-37). -/
structure CurveState where
  curve : List ℚ
  isDragging : Bool
  dragIndex : ℤ
  hoveredIndex : ℤ
deriving DecidableEq

/-- Handler `handleMouseDown` (lines 220-241). -/
def handleMouseDown (s : CurveState) (x y : ℚ) : CurveState :=
  match mouseDownHit (getCurvePoints s.curve) x y with
  | some i => { s with isDragging := true, dragIndex := (i : ℤ) }
  | none => s

/-- Handler `handleMouseMove` (lines 243-275): while dragging, copy the curve and
overwrite entry `dragIndex` with the clamped inverse Y mapping of the pointer
(`onChange(newCurve)` feeds it back as the new curve prop); otherwise update
the hovered index by the hover scan. -/
def handleMouseMove (s : CurveState) (x y : ℚ) : CurveState :=
  if s.isDragging = true ∧ 0 ≤ s.dragIndex then
    { s with curve := s.curve.set s.dragIndex.toNat (canvasToValueY y) }
  else
    match hoverHit (getCurvePoints s.curve) x y with
    | some i => { s with hoveredIndex := (i : ℤ) }
    | none => { s with hoveredIndex := -1 }

/-- Handler `handleMouseUp` (lines 277-280). -/
def handleMouseUp (s : CurveState) : CurveState :=
  { s with isDragging := false, dragIndex := -1 }

/-- Handler `handleMouseLeave` (lines 282-289). -/
def handleMouseLeave (s : CurveState) : CurveState :=
  { s with hoveredIndex := -1, isDragging := false, dragIndex := -1 }

/-- Action `resetCurve` (lines 291-293): it only emits the identity ramp through
`onChange`; it contains no update of `isDragging` or `dragIndex`. -/
def resetCurve (s : CurveState) : CurveState :=
  { s with curve := [0, 25, 50, 75, 100] }

/-- C5 counterexample. The claim says reset also transitions the widget's
interaction state to Idle.  `resetCurve` only replaces the curve: invoked
mid-drag (isDragging = true, dragIndex = 2) the widget stays in the dragging
state, with dragIndex still 2. -/
theorem reset_not_idle_cex :
    (resetCurve ⟨[0, 25, 50, 99, 100], true, 2, -1⟩).curve = [0, 25, 50, 75, 100] ∧
    (resetCurve ⟨[0, 25, 50, 99, 100], true, 2, -1⟩).isDragging = true ∧
    (resetCurve ⟨[0, 25, 50, 99, 100], true, 2, -1⟩).dragIndex = 2 ∧
    ¬((resetCurve ⟨[0, 25, 50, 99, 100], true, 2, -1⟩).dragIndex = -1 ∧
      (resetCurve ⟨[0, 25, 50, 99, 100], true, 2, -1⟩).isDragging = false) := by
  refine ⟨rfl, rfl, rfl, ?_⟩
  rintro ⟨h, -⟩
  simp [resetCurve] at h

/-- C5 (amended). From every widget state (including mid-drag), the reset
action yields the identity vector [0,25,50,75,100]; it leaves the interaction
state (isDragging, dragIndex, hoveredIndex) exactly as it was, rather than
forcing Idle. -/
theorem reset_sets_identity_keeps_state (s : CurveState) :
    (resetCurve s).curve = [0, 25, 50, 75, 100] ∧
    (resetCurve s).isDragging = s.isDragging ∧
    (resetCurve s).dragIndex = s.dragIndex ∧
    (resetCurve s).hoveredIndex = s.hoveredIndex :=
  ⟨rfl, rfl, rfl, rfl⟩

lemma getCurvePoints_x_map (c : List ℚ) :
    (getCurvePoints c).map Point.x =
      (List.range c.length).map fun i : ℕ => valueToCanvas ((i : ℚ) * 25) := by
  unfold getCurvePoints
  rw [List.map_map]
  have hcomp : (Point.x ∘ fun iy : ℕ × ℚ =>
      (⟨valueToCanvas ((iy.1 : ℚ) * 25), valueToCanvasY iy.2⟩ : Point)) =
      (fun i : ℕ => valueToCanvas ((i : ℚ) * 25)) ∘ Prod.fst := rfl
  have henum : List.map Prod.fst c.enum = List.range c.length := by simp
  rw [hcomp, ← List.map_map, henum]

/-- C9. Drag frame property: while dragging control point i, a
pointer-move replaces the curve by the old curve with only entry i set to the
clamped inverse Y mapping of the pointer; every other entry is bitwise
unchanged, the new value lies in [0,100], the length and every point's
x-coordinate are unchanged, and the drag state itself is untouched. -/
theorem drag_frame_property (s : CurveState) (x y : ℚ) (i : ℕ)
    (hdrag : s.isDragging = true) (hidx : s.dragIndex = (i : ℤ)) :
    (handleMouseMove s x y).curve = s.curve.set i (canvasToValueY y) ∧
    (∀ j, j ≠ i → (handleMouseMove s x y).curve[j]? = s.curve[j]?) ∧
    (0 ≤ canvasToValueY y ∧ canvasToValueY y ≤ 100) ∧
    (handleMouseMove s x y).curve.length = s.curve.length ∧
    ((getCurvePoints (handleMouseMove s x y).curve).map Point.x =
      (getCurvePoints s.curve).map Point.x) ∧
    (handleMouseMove s x y).isDragging = s.isDragging ∧
    (handleMouseMove s x y).dragIndex = s.dragIndex := by
  have htn : s.dragIndex.toNat = i := by rw [hidx]; simp
  have hcond : s.isDragging = true ∧ 0 ≤ s.dragIndex := by
    refine ⟨hdrag, ?_⟩; rw [hidx]; positivity
  have hmove : handleMouseMove s x y =
      { s with curve := s.curve.set i (canvasToValueY y) } := by
    unfold handleMouseMove
    rw [if_pos hcond, htn]
  refine ⟨by rw [hmove], ?_, ⟨le_max_left _ _, ?_⟩, ?_, ?_, by rw [hmove], by rw [hmove]⟩
  · intro j hj
    rw [hmove]
    exact List.getElem?_set_ne (fun h => hj h.symm)
  · exact max_le (by norm_num) (min_le_left _ _)
  · rw [hmove]; exact List.length_set s.curve i (canvasToValueY y)
  · rw [hmove]
    rw [getCurvePoints_x_map, getCurvePoints_x_map, List.length_set]

/-- Witness for C9 at a concrete mid-drag state and pointer position. -/
theorem drag_frame_property_witness :
    (handleMouseMove ⟨[0, 25, 50, 75, 100], true, 2, -1⟩ 100 60).curve =
      ([0, 25, 50, 75, 100] : List ℚ).set 2 (canvasToValueY 60) :=
  (drag_frame_property ⟨[0, 25, 50, 75, 100], true, 2, -1⟩ 100 60 2 rfl rfl).1

lemma downScan_eq_some_iff (x y : ℚ) (l : List Point) :
    ∀ (n i : ℕ), downScan x y l n = some i ↔
      ∃ j p, l[j]? = some p ∧ i = n + j ∧ distSq x y p ≤ 8 ^ 2 ∧
        ∀ k q, k < j → l[k]? = some q → 8 ^ 2 < distSq x y q := by
  induction l with
  | nil => intro n i; simp [downScan]
  | cons p rest ih =>
    intro n i
    unfold downScan
    by_cases h : distSq x y p ≤ 8 ^ 2
    · rw [if_pos h]
      constructor
      · intro hs
        obtain rfl : n = i := Option.some_inj.mp hs
        exact ⟨0, p, by simp, by omega, h, fun k q hk => absurd hk (Nat.not_lt_zero k)⟩
      · rintro ⟨j, q, hget, rfl, hle, hlt⟩
        cases j with
        | zero => simp
        | succ j => exact absurd h (not_le.mpr (hlt 0 p (Nat.succ_pos j) (by simp)))
    · rw [if_neg h, ih (n + 1) i]
      constructor
      · rintro ⟨j, q, hget, rfl, hle, hlt⟩
        refine ⟨j + 1, q, by simpa using hget, by omega, hle, ?_⟩
        intro k r hk hkget
        cases k with
        | zero =>
          obtain rfl : p = r := by simpa using hkget
          exact not_le.mp h
        | succ k => exact hlt k r (by omega) (by simpa using hkget)
      · rintro ⟨j, q, hget, rfl, hle, hlt⟩
        cases j with
        | zero =>
          obtain rfl : p = q := by simpa using hget
          exact absurd hle h
        | succ j =>
          refine ⟨j, q, by simpa using hget, by omega, hle, ?_⟩
          intro k r hk hkget
          exact hlt (k + 1) r (by omega) (by simpa using hkget)

lemma hoverScan_eq_downScan (x y : ℚ) (l : List Point) :
    ∀ n : ℕ, hoverScan x y l n = downScan x y l n := by
  induction l with
  | nil => intro n; rfl
  | cons p rest ih =>
    intro n
    unfold hoverScan downScan
    split
    · rfl
    · exact ih (n + 1)

/-- C8. Hit-testing: drag-start selection returns index i iff control
point i is within Euclidean distance 8 of the pointer (squared distance at
most 8² = 64) and every lower-indexed point is strictly farther than 8 —
first match in point order wins; a pointer whose distance to every point is
exactly 8.01 (squared distance 8.01² > 64) selects none; and hover selection
is the very same scan as drag-start selection. -/
theorem hit_testing_characterization (pts : List Point) (x y : ℚ) :
    (∀ i, mouseDownHit pts x y = some i ↔
      ∃ p, pts[i]? = some p ∧ distSq x y p ≤ 8 ^ 2 ∧
        ∀ k q, k < i → pts[k]? = some q → 8 ^ 2 < distSq x y q) ∧
    ((∀ p ∈ pts, distSq x y p = 8.01 ^ 2) → mouseDownHit pts x y = none) ∧
    hoverHit pts x y = mouseDownHit pts x y := by
  have hiff : ∀ i, mouseDownHit pts x y = some i ↔
      ∃ p, pts[i]? = some p ∧ distSq x y p ≤ 8 ^ 2 ∧
        ∀ k q, k < i → pts[k]? = some q → 8 ^ 2 < distSq x y q := by
    intro i
    rw [mouseDownHit, downScan_eq_some_iff x y pts 0 i]
    constructor
    · rintro ⟨j, p, hget, rfl, hle, hlt⟩
      exact ⟨p, by simpa using hget, hle, fun k q hk hkq => hlt k q (by omega) hkq⟩
    · rintro ⟨p, hget, hle, hlt⟩
      exact ⟨i, p, hget, by omega, hle, hlt⟩
  refine ⟨hiff, ?_, hoverScan_eq_downScan x y pts 0⟩
  intro hall
  match hmatch : mouseDownHit pts x y with
  | none => rfl
  | some i =>
    obtain ⟨p, hget, hle, -⟩ := (hiff i).mp hmatch
    have hmem : p ∈ pts := by
      have := List.getElem?_eq_some_iff.mp hget
      obtain ⟨hlen, rfl⟩ := this
      exact List.getElem_mem hlen
    rw [hall p hmem] at hle
    norm_num at hle

/-- Witness for C8: with two overlapping candidates (both within radius 8 of
the pointer), drag-start selection picks the lowest index 0. -/
theorem hit_testing_characterization_witness :
    mouseDownHit [⟨20, 180⟩, ⟨24, 180⟩] 26 180 = some 0 :=
  ((hit_testing_characterization [⟨20, 180⟩, ⟨24, 180⟩] 26 180).1 0).mpr
    ⟨⟨20, 180⟩, rfl, by norm_num [distSq],
      fun k q hk _ => absurd hk (Nat.not_lt_zero k)⟩

/-! ### Scenario and idempotence claims -/

/-- Adjustments with only temperature raised to 50. -/
def tempFifty : ColorAdjustments := { defaultAdjustments with temperature := 50 }

/-- Adjustments with only saturation lowered to -100. -/
def satNegHundred : ColorAdjustments :=
  { defaultAdjustments with saturation := -100 }

/-- C6 counterexample. The per-pixel pipeline is not idempotent as a
buffer transform: with temperature = 50 the pixel (100,100,100) becomes
(115,100,85) after one pass, but a second pass over that output gives
(130,100,70). -/
theorem pipeline_not_idempotent_cex :
    processBuffer tempFifty [⟨100, 100, 100, 255⟩] = [⟨115, 100, 85, 255⟩] ∧
    processBuffer tempFifty (processBuffer tempFifty [⟨100, 100, 100, 255⟩]) =
      [⟨130, 100, 70, 255⟩] ∧
    processBuffer tempFifty (processBuffer tempFifty [⟨100, 100, 100, 255⟩]) ≠
      processBuffer tempFifty [⟨100, 100, 100, 255⟩] := by
  have h1 : processBuffer tempFifty [⟨100, 100, 100, 255⟩] =
      [⟨115, 100, 85, 255⟩] := by
    norm_num [processBuffer, applyPixel, applyPixelQ, tempStep, tintStep,
      contrastStep, satStep, zoneStep, normalizedLum, clamp255, storeByte,
      roundHalfEven, tempFifty, defaultAdjustments]
    decide
  have h2 : processBuffer tempFifty [⟨115, 100, 85, 255⟩] =
      [⟨130, 100, 70, 255⟩] := by
    norm_num [processBuffer, applyPixel, applyPixelQ, tempStep, tintStep,
      contrastStep, satStep, zoneStep, normalizedLum, clamp255, storeByte,
      roundHalfEven, tempFifty, defaultAdjustments]
    decide
  refine ⟨h1, by rw [h1, h2], ?_⟩
  rw [h1, h2]
  intro hcontra
  simp at hcontra

/-- C6 (amended). Every render is deterministic and synchronous, and
re-running the render operation with unchanged image and parameters is
idempotent at the canvas level, because each pass first redraws the decoded
source image over the canvas (so the previous canvas content never feeds
back): rendering on top of a previous render's canvas yields exactly that
previous render's canvas.  The bare per-pixel buffer transform, however, is
not idempotent (see the counterexample). -/
theorem render_idempotent_from_source (src : List Pixel)
    (adj : ColorAdjustments) (showBefore : Bool) (prev : List Pixel) :
    renderCanvas src adj showBefore (renderCanvas src adj showBefore prev) =
      renderCanvas src adj showBefore prev := rfl

/-- C7. Full-desaturation scenario: with saturation = -100 and all other
controls at 0/identity, input pixel (200,50,50) produces
r = g = b = 0.299·200 + 0.587·50 + 0.114·50 (= 94.85) on all three channels;
that luminance is within rounding distance (half a quantization unit) of the
quoted 95.05, and the bytes written back are (95,95,95). -/
theorem full_desaturation_scenario :
    applyPixelQ satNegHundred { r := 200, g := 50, b := 50 } =
      { r := 0.299 * 200 + 0.587 * 50 + 0.114 * 50,
        g := 0.299 * 200 + 0.587 * 50 + 0.114 * 50,
        b := 0.299 * 200 + 0.587 * 50 + 0.114 * 50 } ∧
    |(0.299 * 200 + 0.587 * 50 + 0.114 * 50 : ℚ) - 95.05| ≤ 1 / 2 ∧
    applyPixel satNegHundred ⟨200, 50, 50, 255⟩ = ⟨95, 95, 95, 255⟩ := by
  refine ⟨?_, ?_, ?_⟩
  · norm_num [applyPixelQ, tempStep, tintStep, contrastStep, satStep,
      zoneStep, normalizedLum, clamp255, satNegHundred, defaultAdjustments]
  · rw [abs_le]; constructor <;> norm_num
  · norm_num [applyPixel, applyPixelQ, tempStep, tintStep, contrastStep,
      satStep, zoneStep, normalizedLum, clamp255, storeByte, roundHalfEven,
      satNegHundred, defaultAdjustments]
    decide

/-- C10. Before-view bypass: when `showBefore` is set, the render step
draws the decoded source image and performs no per-pixel transformation, so
the displayed canvas equals the source buffer regardless of every adjustment
parameter and of whatever was on the canvas before. -/
theorem show_before_bypass (src : List Pixel) (adj : ColorAdjustments)
    (prev : List Pixel) : renderCanvas src adj true prev = src := rfl

end UnderwaterPhoto
